import Mathlib

/-!
Verification development for the image client in
src/src/services/geminiService.ts.

The TypeScript module wraps one remote generate-content capability with
three operations: generateImage, editImage and segmentImage.  The
definitions below are a shallow embedding of that module: request and
response records mirror the TypeScript object shapes, optional fields
become Option, and JavaScript truthiness on strings (undefined, null and
the empty string are falsy) is made explicit.  Thrown errors become
Except values.  JSON.parse is embedded as an executable recursive-descent
parser over the character list of the text; numeric literals are kept as
their source text, since no property proved here depends on numeric
values.
-/

/-- Request shape for generateImage, from the GenerationRequest interface. -/
structure GenerationRequest where
  prompt : String
  referenceImages : Option (List String)
  temperature : Option Int
  seed : Option Int

/-- Request shape for editImage, from the EditRequest interface. -/
structure EditRequest where
  instruction : String
  originalImage : String
  referenceImages : Option (List String)
  maskImage : Option String
  temperature : Option Int
  seed : Option Int

/-- Request shape for segmentImage, from the SegmentationRequest interface. -/
structure SegmentationRequest where
  image : String
  query : String

/-- One element of the contents list sent to the provider: either a text
element or an inline-image element with a mime type and base64 data. -/
inductive ContentItem where
  | text : String → ContentItem
  | inlineData : String → String → ContentItem
deriving DecidableEq

/-- The inlineData field of a response part. -/
structure InlineData where
  mimeType : Option String
  data : Option String

/-- One content part of a response candidate: may carry text, inline
image data, both or neither. -/
structure ResponsePart where
  text : Option String
  inlineData : Option InlineData

/-- The content field of a candidate. -/
structure Content where
  parts : Option (List ResponsePart)

/-- One response candidate. -/
structure Candidate where
  content : Option Content

/-- A provider response as read by the module: an optional list of
candidates. -/
structure GenResponse where
  candidates : Option (List Candidate)

/-- JavaScript truthiness of an optional string value: undefined and the
empty string are falsy, every other string is truthy. -/
def jsTruthy : Option String → Bool
  | some s => decide (¬ s = "")
  | none => false

/-- Contents list built by generateImage, from source lines 31 to 43: the
prompt text first, then one inline-image element pushed per reference
image, guarded by the truthiness and length check of the source. -/
def buildGenerateContents (request : GenerationRequest) : List ContentItem :=
  let contents : List ContentItem := [ContentItem.text request.prompt]
  match request.referenceImages with
  | some imgs =>
    if imgs.length > 0 then
      imgs.foldl (fun acc image => acc ++ [ContentItem.inlineData "image/png" image]) contents
    else contents
  | none => contents

/-- Fixed clause appended to the edit prompt when a mask is supplied,
from source lines 187 to 189. -/
def maskClause : String :=
  "\n\nIMPORTANT: Apply changes ONLY where the mask image shows white pixels (value 255). Leave all other areas completely unchanged. Respect the mask boundaries precisely and maintain seamless blending at the edges."

/-- Leading fixed text of the edit prompt template, source line 191. -/
def editPromptHead : String :=
  "Edit this image according to the following instruction: "

/-- Fixed text of the edit prompt template between the instruction and
the optional mask clause, source line 193. -/
def editPromptMid : String :=
  "\n\nMaintain the original image\x27s lighting, perspective, and overall composition. Make the changes look natural and seamlessly integrated."

/-- Trailing fixed text of the edit prompt template, source line 195. -/
def editPromptTail : String :=
  "\n\nPreserve image quality and ensure the edit looks professional and realistic."

/-- The buildEditPrompt method, source lines 186 to 196.  The mask
instruction is the fixed clause when maskImage is truthy and the empty
string otherwise. -/
def buildEditPrompt (request : EditRequest) : String :=
  let maskInstruction : String :=
    match request.maskImage with
    | some m => if m = "" then "" else maskClause
    | none => ""
  editPromptHead ++ request.instruction ++ editPromptMid ++ maskInstruction ++ editPromptTail

/-- Contents list built by editImage, from source lines 91 to 120: edit
prompt text, original image, then pushed reference images, then the mask
image when truthy. -/
def buildEditContents (request : EditRequest) : List ContentItem :=
  let contents : List ContentItem :=
    [ContentItem.text (buildEditPrompt request),
     ContentItem.inlineData "image/png" request.originalImage]
  let contents :=
    match request.referenceImages with
    | some imgs =>
      if imgs.length > 0 then
        imgs.foldl (fun acc image => acc ++ [ContentItem.inlineData "image/png" image]) contents
      else contents
    | none => contents
  match request.maskImage with
  | some m => if m = "" then contents else contents ++ [ContentItem.inlineData "image/png" m]
  | none => contents

/-- One step of the result-collection loop of generateImage and
editImage: push the inline data of the part when it is truthy. -/
def pushImageStep (images : List String) (part : ResponsePart) : List String :=
  match part.inlineData with
  | some d =>
    match d.data with
    | some s => if s = "" then images else images ++ [s]
    | none => images
  | none => images

/-- Result extraction of generateImage, source lines 50 to 60: walk the
parts of the first candidate and collect truthy inline data, else return
the empty list. -/
def generateImageResult (resp : GenResponse) : List String :=
  match resp.candidates with
  | some (c :: _) =>
    match c.content with
    | some ct =>
      match ct.parts with
      | some parts => parts.foldl pushImageStep []
      | none => []
    | none => []
  | _ => []

/-- Result extraction of editImage, source lines 127 to 137; the source
repeats the generateImage loop verbatim. -/
def editImageResult (resp : GenResponse) : List String :=
  match resp.candidates with
  | some (c :: _) =>
    match c.content with
    | some ct =>
      match ct.parts with
      | some parts => parts.foldl pushImageStep []
      | none => []
    | none => []
  | _ => []

/-- Parts of the first candidate, written from the spec wording of the
extraction rule, for comparison with the source-side extraction. -/
def firstCandidateParts (resp : GenResponse) : List ResponsePart :=
  match resp.candidates with
  | some (c :: _) =>
    match c.content with
    | some ct => ct.parts.getD []
    | none => []
  | _ => []

/-- The inline image data carried by a part, written from the spec
wording: the data field when present and nonempty, else nothing. -/
def partInlineImageData (p : ResponsePart) : Option String :=
  match p.inlineData with
  | some d =>
    match d.data with
    | some s => if s = "" then none else some s
    | none => none
  | none => none

/-- Spec-side description of the extraction: the inline image data of
the first candidate parts, in part order. -/
def specExtractedImages (resp : GenResponse) : List String :=
  (firstCandidateParts resp).filterMap partInlineImageData

/-- A caught JavaScript error value as inspected by the module: an
optional numeric code, an optional message and an optional nested error
object.  The code field is modelled as an optional integer, which covers
every shape the source compares against 429. -/
inductive JsError where
  | mk : Option Int → Option String → Option JsError → JsError

/-- The code field of an error value. -/
def JsError.code : JsError → Option Int
  | JsError.mk c _ _ => c

/-- The message field of an error value. -/
def JsError.message : JsError → Option String
  | JsError.mk _ m _ => m

/-- The nested error field of an error value. -/
def JsError.error : JsError → Option JsError
  | JsError.mk _ _ e => e

/-- Optional chaining on the code field. -/
def optCode : Option JsError → Option Int
  | some e => e.code
  | none => none

/-- Optional chaining on the message field. -/
def optMessage : Option JsError → Option String
  | some e => e.message
  | none => none

/-- Optional chaining on the nested error field. -/
def optError : Option JsError → Option JsError
  | some e => e.error
  | none => none

/-- Check whether the needle list is a leading segment of the haystack
list; embedding of the prefix test behind String.includes. -/
def startsWith : List Char → List Char → Bool
  | [], _ => true
  | _ :: _, [] => false
  | a :: as, b :: bs => a = b && startsWith as bs

/-- Check whether the needle occurs contiguously anywhere in the
haystack; first argument is the haystack. -/
def charsContains : List Char → List Char → Bool
  | [], needle => startsWith needle []
  | c :: rest, needle => startsWith needle (c :: rest) || charsContains rest needle

/-- Embedding of the JavaScript String.includes test used on error
messages. -/
def strIncludes (s sub : String) : Bool :=
  charsContains s.data sub.data

/-- Truthy message containing the substring quota, as in the last
disjunct of the rate-limit test on source line 68. -/
def quotaCheck : Option String → Bool
  | some m => decide (¬ m = "") && strIncludes m "quota"
  | none => false

/-- The rate-limit condition of source lines 65 to 68: a 429 code at any
of the three known nesting shapes, or a truthy nested message containing
quota. -/
def isRateLimitError (e : JsError) : Bool :=
  decide (optCode e.error = some 429)
    || decide (optCode (optError e.error) = some 429)
    || decide (e.code = some 429)
    || quotaCheck (optMessage e.error)

/-- Message thrown for rate-limit errors, source line 69. -/
def rateLimitMessage : String :=
  "Rate limit exceeded. Please wait a few minutes before trying again, or upgrade your Google AI Studio plan for higher quotas."

/-- Fallback message thrown by generateImage, source line 85. -/
def generateFallbackMessage : String :=
  "Failed to generate image. Please try again."

/-- Normalized error taxonomy of the spec, each constructor carrying the
thrown message text. -/
inductive NormalizedError where
  | rateLimitExceeded : String → NormalizedError
  | apiError : String → NormalizedError
  | genericError : String → NormalizedError
  | unknownError : String → NormalizedError
deriving DecidableEq

/-- A truthy optional string, or nothing: the value JavaScript tests of
the form if e.message observe. -/
def truthyStr : Option String → Option String
  | some s => if s = "" then none else some s
  | none => none

/-- The catch block of generateImage, source lines 61 to 86: rate-limit
check first, then the nested provider message at two depths, then the
generic message, then the fixed fallback. -/
def normalizeGenerateError (e : JsError) : NormalizedError :=
  if isRateLimitError e then
    NormalizedError.rateLimitExceeded rateLimitMessage
  else
    match truthyStr (optMessage e.error) with
    | some m => NormalizedError.apiError ("API Error: " ++ m)
    | none =>
      match truthyStr (optMessage (optError e.error)) with
      | some m => NormalizedError.apiError ("API Error: " ++ m)
      | none =>
        match truthyStr e.message with
        | some m => NormalizedError.genericError ("Error: " ++ m)
        | none => NormalizedError.unknownError generateFallbackMessage

/-- Message thrown by the catch block of editImage, source line 140, for
every caught error. -/
def editImageCaughtMessage (e : JsError) : String :=
  match e with
  | _ => "Failed to edit image. Please try again."

/-- Message thrown by the catch block of segmentImage, source line 182,
for every caught error. -/
def segmentImageCaughtMessage (e : JsError) : String :=
  match e with
  | _ => "Failed to segment image. Please try again."

/-- The fixed message surfaced by segmentImage on every failure. -/
def segmentFallbackMessage : String :=
  "Failed to segment image. Please try again."

/-- The message of the internal error thrown when the response text is
missing, source line 177. -/
def noResponseTextMessage : String :=
  "No response text received from API"

/-- The text of the first part of the first candidate, as read by
segmentImage on source line 175. -/
def firstPartText (resp : GenResponse) : Option String :=
  match resp.candidates with
  | some (c :: _) =>
    match c.content with
    | some ct =>
      match ct.parts with
      | some (p :: _) => p.text
      | _ => none
    | none => none
  | _ => none

/-- JSON whitespace test. -/
def isJsonWs (c : Char) : Bool :=
  c == ' ' || c == '\t' || c == '\n' || c == '\r'

/-- Drop leading JSON whitespace. -/
def skipWs : List Char → List Char
  | [] => []
  | c :: rest => if isJsonWs c then skipWs rest else c :: rest

/-- JSON values as produced by JSON.parse.  Numeric literals are kept as
their source text: no property proved here depends on numeric values,
and JavaScript float semantics are out of scope. -/
inductive Json where
  | null : Json
  | bool : Bool → Json
  | num : String → Json
  | str : String → Json
  | arr : List Json → Json
  | obj : List (String × Json) → Json

/-- Value of one hexadecimal digit. -/
def hexVal (c : Char) : Option Nat :=
  if '0' ≤ c ∧ c ≤ '9' then some (c.toNat - '0'.toNat)
  else if 'a' ≤ c ∧ c ≤ 'f' then some (c.toNat - 'a'.toNat + 10)
  else if 'A' ≤ c ∧ c ≤ 'F' then some (c.toNat - 'A'.toNat + 10)
  else none

/-- Parse the remainder of a JSON string after its opening quote,
returning the decoded characters and the rest of the input.  Unicode
escapes are mapped through scalar values; surrogate pairing is not
modelled, which no property here depends on. -/
def parseStringRest : Nat → List Char → Option (List Char × List Char)
  | 0, _ => none
  | _ + 1, [] => none
  | fuel + 1, c :: rest =>
    if c = '"' then some ([], rest)
    else if c = '\\' then
      match rest with
      | [] => none
      | e :: rest2 =>
        let cont : Char → List Char → Option (List Char × List Char) := fun ch rem =>
          match parseStringRest fuel rem with
          | some (cs, r) => some (ch :: cs, r)
          | none => none
        if e = '"' then cont '"' rest2
        else if e = '\\' then cont '\\' rest2
        else if e = '/' then cont '/' rest2
        else if e = 'b' then cont (Char.ofNat 8) rest2
        else if e = 'f' then cont (Char.ofNat 12) rest2
        else if e = 'n' then cont '\n' rest2
        else if e = 'r' then cont '\r' rest2
        else if e = 't' then cont '\t' rest2
        else if e = 'u' then
          match rest2 with
          | h1 :: h2 :: h3 :: h4 :: rest3 =>
            match hexVal h1, hexVal h2, hexVal h3, hexVal h4 with
            | some a, some b, some c2, some d =>
              cont (Char.ofNat (((a * 16 + b) * 16 + c2) * 16 + d)) rest3
            | _, _, _, _ => none
          | _ => none
        else none
    else if c.toNat < 32 then none
    else
      match parseStringRest fuel rest with
      | some (cs, r) => some (c :: cs, r)
      | none => none

/-- Take the leading run of decimal digits. -/
def takeDigits : List Char → List Char × List Char
  | [] => ([], [])
  | c :: rest =>
    if c.isDigit then
      let (ds, r) := takeDigits rest
      (c :: ds, r)
    else ([], c :: rest)

/-- Parse an optional exponent part of a JSON number, appending to the
accumulated lexeme. -/
def parseExpPart (acc : List Char) (cs : List Char) : Option (List Char × List Char) :=
  match cs with
  | e :: rest =>
    if e = 'e' ∨ e = 'E' then
      let (sg, cs2) : List Char × List Char :=
        match rest with
        | '+' :: r => (['+'], r)
        | '-' :: r => (['-'], r)
        | _ => ([], rest)
      match cs2 with
      | d :: r2 =>
        if d.isDigit then
          let (ds, r3) := takeDigits r2
          some (acc ++ [e] ++ sg ++ d :: ds, r3)
        else none
      | [] => none
    else some (acc, cs)
  | [] => some (acc, [])

/-- Parse an optional fraction part followed by an optional exponent
part of a JSON number. -/
def parseFracExp (acc : List Char) (cs : List Char) : Option (List Char × List Char) :=
  match cs with
  | '.' :: rest =>
    match rest with
    | d :: r2 =>
      if d.isDigit then
        let (ds, r3) := takeDigits r2
        parseExpPart (acc ++ '.' :: d :: ds) r3
      else none
    | [] => none
  | _ => parseExpPart acc cs

/-- Parse a JSON number lexeme. -/
def parseNumLexeme (cs : List Char) : Option (List Char × List Char) :=
  let (sgn, cs1) : List Char × List Char :=
    match cs with
    | '-' :: r => (['-'], r)
    | _ => ([], cs)
  match cs1 with
  | [] => none
  | c :: rest =>
    if c = '0' then
      parseFracExp (sgn ++ ['0']) rest
    else if c.isDigit then
      let (ds, r) := takeDigits rest
      parseFracExp (sgn ++ c :: ds) r
    else none

mutual

/-- Parse one JSON value from the input, fuel-bounded. -/
def parseValue : Nat → List Char → Option (Json × List Char)
  | 0, _ => none
  | fuel + 1, cs =>
    match skipWs cs with
    | 'n' :: 'u' :: 'l' :: 'l' :: rest => some (Json.null, rest)
    | 't' :: 'r' :: 'u' :: 'e' :: rest => some (Json.bool true, rest)
    | 'f' :: 'a' :: 'l' :: 's' :: 'e' :: rest => some (Json.bool false, rest)
    | '"' :: rest =>
      match parseStringRest (rest.length + 1) rest with
      | some (cs2, r) => some (Json.str (String.mk cs2), r)
      | none => none
    | '[' :: rest => parseArrayBody fuel rest
    | '\x7b' :: rest => parseObjectBody fuel rest
    | other =>
      match parseNumLexeme other with
      | some (lex, r) => some (Json.num (String.mk lex), r)
      | none => none

/-- Parse the body of a JSON array after the opening bracket. -/
def parseArrayBody : Nat → List Char → Option (Json × List Char)
  | 0, _ => none
  | fuel + 1, cs =>
    match skipWs cs with
    | ']' :: rest => some (Json.arr [], rest)
    | cs2 =>
      match parseValue fuel cs2 with
      | some (v, r) => parseArrayTail fuel [v] r
      | none => none

/-- Parse the continuation of a JSON array after one element. -/
def parseArrayTail : Nat → List Json → List Char → Option (Json × List Char)
  | 0, _, _ => none
  | fuel + 1, acc, cs =>
    match skipWs cs with
    | ',' :: rest =>
      match parseValue fuel rest with
      | some (v, r) => parseArrayTail fuel (acc ++ [v]) r
      | none => none
    | ']' :: rest => some (Json.arr acc, rest)
    | _ => none

/-- Parse one key-value member of a JSON object. -/
def parseMember : Nat → List Char → Option ((String × Json) × List Char)
  | 0, _ => none
  | fuel + 1, cs =>
    match skipWs cs with
    | '"' :: rest =>
      match parseStringRest (rest.length + 1) rest with
      | some (kcs, r) =>
        match skipWs r with
        | ':' :: r2 =>
          match parseValue fuel r2 with
          | some (v, r3) => some ((String.mk kcs, v), r3)
          | none => none
        | _ => none
      | none => none
    | _ => none

/-- Parse the body of a JSON object after the opening brace. -/
def parseObjectBody : Nat → List Char → Option (Json × List Char)
  | 0, _ => none
  | fuel + 1, cs =>
    match skipWs cs with
    | '\x7d' :: rest => some (Json.obj [], rest)
    | cs2 =>
      match parseMember fuel cs2 with
      | some (kv, r) => parseObjectTail fuel [kv] r
      | none => none

/-- Parse the continuation of a JSON object after one member. -/
def parseObjectTail : Nat → List (String × Json) → List Char → Option (Json × List Char)
  | 0, _, _ => none
  | fuel + 1, acc, cs =>
    match skipWs cs with
    | ',' :: rest =>
      match parseMember fuel rest with
      | some (kv, r) => parseObjectTail fuel (acc ++ [kv]) r
      | none => none
    | '\x7d' :: rest => some (Json.obj acc, rest)
    | _ => none

end

/-- Embedding of JSON.parse: parse one value, require only whitespace
after it.  The fuel bound exceeds what any input can consume, since
every recursive step follows at least one consumed character. -/
def jsonParse (s : String) : Option Json :=
  match parseValue (2 * s.length + 2) s.data with
  | some (v, rest) =>
    match skipWs rest with
    | [] => some v
    | _ :: _ => none
  | none => none

/-- Internal failure of the segmentImage body before the catch: the
missing-text throw of source line 177, or the JSON.parse throw of source
line 179. -/
inductive SegFailure where
  | noResponseText : SegFailure
  | jsonParseError : SegFailure
deriving DecidableEq

/-- Body of segmentImage on a provider response, source lines 175 to
179: read the text of the first part of the first candidate, throw when
it is falsy, else parse it as JSON. -/
def segmentBody (resp : GenResponse) : Except SegFailure Json :=
  match firstPartText resp with
  | none => Except.error SegFailure.noResponseText
  | some t =>
    if t = "" then Except.error SegFailure.noResponseText
    else
      match jsonParse t with
      | some v => Except.ok v
      | none => Except.error SegFailure.jsonParseError

/-- The segmentImage operation on a provider response, including its
catch block, source lines 175 to 183: any failure of the body is
replaced by the fixed fallback message. -/
def segmentImage (resp : GenResponse) : Except String Json :=
  match segmentBody resp with
  | Except.ok v => Except.ok v
  | Except.error _ => Except.error segmentFallbackMessage

/-- A response part carrying only text. -/
def textPart (t : String) : ResponsePart :=
  ⟨some t, none⟩

/-- A response part carrying only inline image data. -/
def imagePart (d : String) : ResponsePart :=
  ⟨none, some ⟨some "image/png", some d⟩⟩

/-- A response with a single candidate holding the given parts. -/
def responseWithParts (ps : List ResponsePart) : GenResponse :=
  ⟨some [⟨some ⟨some ps⟩⟩]⟩

/-- The caught error shape with a nested message containing quota. -/
def quotaError : JsError :=
  JsError.mk none none (some (JsError.mk none (some "quota exceeded") none))

/-- The caught error shape with a nested 429 code. -/
def nested429Error : JsError :=
  JsError.mk none none (some (JsError.mk (some 429) none none))

/-- A caught error carrying only a top-level message. -/
def plainMessageError : JsError :=
  JsError.mk none (some "network down") none

/-- A response whose only part carries no text. -/
def noTextResponse : GenResponse :=
  responseWithParts [imagePart "imagedata"]

/-- A response whose first part text is not valid JSON. -/
def invalidJsonResponse : GenResponse :=
  responseWithParts [textPart "not json"]

/-- A response whose first part text is a valid JSON object with an
empty masks array. -/
def masksJsonResponse : GenResponse :=
  responseWithParts [textPart "\x7b\"masks\":[]\x7d"]

/-- An edit request whose instruction is the mask clause itself and
which carries no mask. -/
def clauseAsInstructionReq : EditRequest :=
  ⟨maskClause, "orig", none, none, none, none⟩

/-- An edit request carrying a mask. -/
def maskedEditReq : EditRequest :=
  ⟨"add a hat", "orig", none, some "maskdata", none, none⟩

/-- Two generation requests equal except for temperature and seed. -/
def genReqA : GenerationRequest :=
  ⟨"a cat", some ["ref1"], some 1, some 7⟩

/-- Second generation request of the pair. -/
def genReqB : GenerationRequest :=
  ⟨"a cat", some ["ref1"], none, some 9⟩

/-- Two edit requests equal except for temperature and seed. -/
def editReqA : EditRequest :=
  ⟨"add a hat", "orig", some ["ref1"], some "mask", some 2, some 3⟩

/-- Second edit request of the pair. -/
def editReqB : EditRequest :=
  ⟨"add a hat", "orig", some ["ref1"], some "mask", none, none⟩

/-- Spec-side mask element of the edit contents list: the mask image as
final inline element when truthy. -/
def maskTail : Option String → List ContentItem
  | some m => if m = "" then [] else [ContentItem.inlineData "image/png" m]
  | none => []

theorem foldl_push_map (l : List String) :
    ∀ init : List ContentItem,
      l.foldl (fun acc image => acc ++ [ContentItem.inlineData "image/png" image]) init
        = init ++ l.map (fun image => ContentItem.inlineData "image/png" image) := by
  induction l with
  | nil => intro init; simp
  | cons a t ih =>
    intro init
    rw [List.foldl_cons, ih]
    simp

theorem push_image_step_eq (acc : List String) (q : ResponsePart) :
    pushImageStep acc q = acc ++ (partInlineImageData q).toList := by
  obtain ⟨qt, qd⟩ := q
  cases qd with
  | none => simp [pushImageStep, partInlineImageData]
  | some d =>
    obtain ⟨mt, dd⟩ := d
    cases dd with
    | none => simp [pushImageStep, partInlineImageData]
    | some s =>
      by_cases hs : s = "" <;> simp [pushImageStep, partInlineImageData, hs]

theorem push_image_foldl (parts : List ResponsePart) :
    ∀ acc : List String,
      parts.foldl pushImageStep acc = acc ++ parts.filterMap partInlineImageData := by
  induction parts with
  | nil => intro acc; simp
  | cons p rest ih =>
    intro acc
    rw [List.foldl_cons, ih, push_image_step_eq, List.filterMap_cons]
    cases hp : partInlineImageData p with
    | none => simp
    | some v => simp

theorem generate_extract_eq_spec (resp : GenResponse) :
    generateImageResult resp = specExtractedImages resp := by
  obtain ⟨cands⟩ := resp
  cases cands with
  | none => rfl
  | some cl =>
    cases cl with
    | nil => rfl
    | cons c rest =>
      obtain ⟨oct⟩ := c
      cases oct with
      | none => rfl
      | some ct =>
        obtain ⟨op⟩ := ct
        cases op with
        | none => rfl
        | some parts => simpa using push_image_foldl parts []

theorem edit_extract_eq_spec (resp : GenResponse) :
    editImageResult resp = specExtractedImages resp := by
  obtain ⟨cands⟩ := resp
  cases cands with
  | none => rfl
  | some cl =>
    cases cl with
    | nil => rfl
    | cons c rest =>
      obtain ⟨oct⟩ := c
      cases oct with
      | none => rfl
      | some ct =>
        obtain ⟨op⟩ := ct
        cases op with
        | none => rfl
        | some parts => simpa using push_image_foldl parts []

/-- Claim C1: for every provider response, generateImage and editImage
return exactly the inline-image data fields of the content parts of the
first candidate, in part order, and when no part carries inline image
data the result is the empty sequence, not an error.  Formalised as the
equality of both source-side extractions with the spec-side collected
sequence, together with the example response of the claim. -/
theorem generate_and_edit_collect_inline_image_data :
    (∀ resp : GenResponse,
      generateImageResult resp = specExtractedImages resp
        ∧ editImageResult resp = specExtractedImages resp)
    ∧ generateImageResult (responseWithParts [textPart "intro", imagePart "imageA", imagePart "imageB"])
        = ["imageA", "imageB"]
    ∧ editImageResult (responseWithParts [textPart "only text"]) = [] :=
  ⟨fun resp => ⟨generate_extract_eq_spec resp, edit_extract_eq_spec resp⟩, rfl, rfl⟩

/-- Claim C2: for every GenerationRequest with N reference images,
generateImage builds a content list whose first element is the prompt
text followed by exactly N inline-image elements in input order; for
every EditRequest, editImage builds a content list ordered as edit
prompt text, then the original image, then each reference image in
order, then the mask image last when it is present (truthy, that is,
supplied and nonempty). -/
theorem content_lists_are_ordered_as_specified :
    (∀ gr : GenerationRequest,
      buildGenerateContents gr =
        ContentItem.text gr.prompt
          :: (gr.referenceImages.getD []).map (fun image => ContentItem.inlineData "image/png" image))
    ∧ (∀ er : EditRequest,
      buildEditContents er =
        ContentItem.text (buildEditPrompt er)
          :: ContentItem.inlineData "image/png" er.originalImage
          :: ((er.referenceImages.getD []).map (fun image => ContentItem.inlineData "image/png" image)
              ++ maskTail er.maskImage)) := by
  constructor
  · intro gr
    obtain ⟨p, ri, te, se⟩ := gr
    cases ri with
    | none => rfl
    | some imgs =>
      cases imgs with
      | nil => rfl
      | cons a t => simp [buildGenerateContents, foldl_push_map]
  · intro er
    obtain ⟨ins, oi, ri, mi, te, se⟩ := er
    cases ri with
    | none =>
      cases mi with
      | none => rfl
      | some m => by_cases hm : m = "" <;> simp [buildEditContents, maskTail, hm]
    | some imgs =>
      cases imgs with
      | nil =>
        cases mi with
        | none => rfl
        | some m => by_cases hm : m = "" <;> simp [buildEditContents, maskTail, hm]
      | cons a t =>
        cases mi with
        | none => simp [buildEditContents, maskTail, foldl_push_map]
        | some m =>
          by_cases hm : m = "" <;> simp [buildEditContents, maskTail, hm, foldl_push_map]

/-- Claim C10: the temperature and seed fields are ignored: two
generation requests equal except in temperature and seed produce
identical provider content lists, and likewise two edit requests equal
except in temperature and seed. -/
theorem temperature_and_seed_ignored
    (r1 r2 : GenerationRequest) (e1 e2 : EditRequest)
    (hp : r1.prompt = r2.prompt) (hr : r1.referenceImages = r2.referenceImages)
    (hi : e1.instruction = e2.instruction) (ho : e1.originalImage = e2.originalImage)
    (hre : e1.referenceImages = e2.referenceImages) (hm : e1.maskImage = e2.maskImage) :
    buildGenerateContents r1 = buildGenerateContents r2
      ∧ buildEditContents e1 = buildEditContents e2 := by
  constructor
  · unfold buildGenerateContents
    rw [hp, hr]
  · unfold buildEditContents buildEditPrompt
    rw [hi, ho, hre, hm]

/-- Witness for claim C10, at concrete request pairs differing only in
temperature and seed. -/
theorem temperature_and_seed_ignored_witness :
    buildGenerateContents genReqA = buildGenerateContents genReqB
      ∧ buildEditContents editReqA = buildEditContents editReqB :=
  temperature_and_seed_ignored genReqA genReqB editReqA editReqB rfl rfl rfl rfl rfl rfl

theorem startsWith_append (needle t : List Char) :
    startsWith needle (needle ++ t) = true := by
  induction needle with
  | nil => rfl
  | cons a as ih => simp [startsWith, ih]

theorem charsContains_append (s needle t : List Char) :
    charsContains (s ++ (needle ++ t)) needle = true := by
  induction s with
  | nil =>
    rw [List.nil_append]
    cases hnt : needle ++ t with
    | nil =>
      have hn : needle = [] := (List.append_eq_nil.mp hnt).1
      subst hn
      rfl
    | cons c l =>
      simp only [charsContains]
      rw [← hnt, startsWith_append]
      simp
  | cons a s2 ih =>
    rw [List.cons_append]
    simp only [charsContains]
    rw [ih]
    simp

theorem string_append_data (a b : String) : (a ++ b).data = a.data ++ b.data := by
  cases a
  cases b
  rfl

/-- Claim C3: for every error caught by generateImage, if the error
carries code 429 at any of the known nesting shapes, or the nested
message at depth one contains the substring quota, the surfaced error is
RateLimitExceeded; this check takes precedence over the ApiError path. -/
theorem generate_rate_limit_precedence (e : JsError)
    (h : optCode e.error = some 429 ∨ optCode (optError e.error) = some 429
        ∨ e.code = some 429
        ∨ ∃ m, optMessage e.error = some m ∧ strIncludes m "quota" = true) :
    normalizeGenerateError e = NormalizedError.rateLimitExceeded rateLimitMessage := by
  have hb : isRateLimitError e = true := by
    rcases h with h | h | h | ⟨m, hm, hq⟩
    · simp [isRateLimitError, h]
    · simp [isRateLimitError, h]
    · simp [isRateLimitError, h]
    · have hne : ¬ m = "" := fun he => absurd (he ▸ hq) (by decide)
      simp [isRateLimitError, quotaCheck, hm, hne, hq]
  simp [normalizeGenerateError, hb]

/-- Witness for claim C3, at the caught error shape whose nested message
is quota exceeded: the surfaced error is RateLimitExceeded even though a
nested message for the ApiError path is present. -/
theorem generate_rate_limit_precedence_witness :
    normalizeGenerateError quotaError = NormalizedError.rateLimitExceeded rateLimitMessage :=
  generate_rate_limit_precedence quotaError
    (Or.inr (Or.inr (Or.inr ⟨"quota exceeded", rfl, by decide⟩)))

/-- Claim C4: for every error caught by generateImage that does not
match the rate-limit case, the surfaced error is determined in priority
order: a truthy nested provider message at depth one, else at depth two,
yields ApiError wrapping that message; else a truthy generic message
yields GenericError wrapping that message; else the result is
UnknownError with the fixed fallback message. -/
theorem generate_error_priority_order (e : JsError)
    (hrl : isRateLimitError e = false) :
    (∀ m, truthyStr (optMessage e.error) = some m →
      normalizeGenerateError e = NormalizedError.apiError ("API Error: " ++ m))
    ∧ (truthyStr (optMessage e.error) = none →
       ∀ m, truthyStr (optMessage (optError e.error)) = some m →
        normalizeGenerateError e = NormalizedError.apiError ("API Error: " ++ m))
    ∧ (truthyStr (optMessage e.error) = none →
       truthyStr (optMessage (optError e.error)) = none →
       ∀ m, truthyStr e.message = some m →
        normalizeGenerateError e = NormalizedError.genericError ("Error: " ++ m))
    ∧ (truthyStr (optMessage e.error) = none →
       truthyStr (optMessage (optError e.error)) = none →
       truthyStr e.message = none →
        normalizeGenerateError e = NormalizedError.unknownError generateFallbackMessage) := by
  refine ⟨?_, ?_, ?_, ?_⟩
  · intro m h1
    simp [normalizeGenerateError, hrl, h1]
  · intro h1 m h2
    simp [normalizeGenerateError, hrl, h1, h2]
  · intro h1 h2 m h3
    simp [normalizeGenerateError, hrl, h1, h2, h3]
  · intro h1 h2 h3
    simp [normalizeGenerateError, hrl, h1, h2, h3]

/-- Witness for claim C4, at a caught error carrying only a top-level
message: the surfaced error is GenericError wrapping that message. -/
theorem generate_error_priority_order_witness :
    normalizeGenerateError plainMessageError = NormalizedError.genericError ("Error: " ++ "network down") :=
  (generate_error_priority_order plainMessageError (by decide)).2.2.1 rfl rfl "network down" rfl

/-- Counterexample to claim C7 as stated: a caught error with a nested 429
code is normalized to RateLimitExceeded by generateImage, but editImage
surfaces its fixed edit failure message, which is not the rate-limit
message, and segmentImage likewise surfaces its fixed message. -/
theorem edit_rate_limit_not_normalized_counterexample :
    normalizeGenerateError nested429Error = NormalizedError.rateLimitExceeded rateLimitMessage
    ∧ editImageCaughtMessage nested429Error = "Failed to edit image. Please try again."
    ∧ decide (editImageCaughtMessage nested429Error = rateLimitMessage) = false
    ∧ segmentImageCaughtMessage nested429Error = "Failed to segment image. Please try again." :=
  ⟨rfl, rfl, by decide, rfl⟩

/-- Claim C7, amended: the priority normalization rules are applied only
by generateImage; editImage and segmentImage replace every caught error
with their fixed generic messages, so the caller never observes the raw
provider error shape from any of the three operations, but editImage
does not surface RateLimitExceeded for rate-limit errors. -/
theorem error_surfacing_per_operation_amended (e : JsError) :
    editImageCaughtMessage e = "Failed to edit image. Please try again."
    ∧ segmentImageCaughtMessage e = "Failed to segment image. Please try again."
    ∧ (∃ m, normalizeGenerateError e = NormalizedError.rateLimitExceeded m
        ∨ normalizeGenerateError e = NormalizedError.apiError m
        ∨ normalizeGenerateError e = NormalizedError.genericError m
        ∨ normalizeGenerateError e = NormalizedError.unknownError m) := by
  refine ⟨rfl, rfl, ?_⟩
  unfold normalizeGenerateError
  split
  · exact ⟨rateLimitMessage, Or.inl rfl⟩
  · split
    · next m heq => exact ⟨"API Error: " ++ m, Or.inr (Or.inl rfl)⟩
    · split
      · next m heq => exact ⟨"API Error: " ++ m, Or.inr (Or.inl rfl)⟩
      · split
        · next m heq => exact ⟨"Error: " ++ m, Or.inr (Or.inr (Or.inl rfl))⟩
        · exact ⟨generateFallbackMessage, Or.inr (Or.inr (Or.inr rfl))⟩

theorem empty_string_data : ("" : String).data = [] := rfl

/-- Counterexample to claim C8 as stated: an edit request without a mask
whose instruction text is the mask clause itself yields a prompt that
contains the clause, refuting the only-if direction of the claim. -/
theorem mask_clause_in_instruction_counterexample :
    clauseAsInstructionReq.maskImage = none
    ∧ strIncludes (buildEditPrompt clauseAsInstructionReq) maskClause = true := by
  refine ⟨rfl, ?_⟩
  have hb : buildEditPrompt clauseAsInstructionReq
      = editPromptHead ++ maskClause ++ editPromptMid ++ "" ++ editPromptTail := rfl
  rw [hb]
  simp only [strIncludes]
  have hdata : (editPromptHead ++ maskClause ++ editPromptMid ++ "" ++ editPromptTail).data
      = editPromptHead.data ++ (maskClause.data ++ (editPromptMid.data ++ editPromptTail.data)) := by
    simp [string_append_data, empty_string_data, List.append_assoc]
  rw [hdata]
  exact charsContains_append _ _ _

/-- Claim C8, amended: the edit prompt contains the mask-handling clause
whenever maskImage is truthy; when maskImage is falsy the clause is not
appended and the prompt is exactly the clause-free template around the
instruction, though the prompt may then still contain the clause when
the instruction itself carries it. -/
theorem mask_clause_presence_amended (req : EditRequest) :
    (jsTruthy req.maskImage = true → strIncludes (buildEditPrompt req) maskClause = true)
    ∧ (jsTruthy req.maskImage = false →
        buildEditPrompt req = editPromptHead ++ req.instruction ++ editPromptMid ++ editPromptTail) := by
  obtain ⟨ins, oi, ri, mi, te, se⟩ := req
  constructor
  · intro hmask
    cases mi with
    | none => simp [jsTruthy] at hmask
    | some m =>
      have hne : ¬ m = "" := by
        intro he
        subst he
        simp [jsTruthy] at hmask
      have hb : buildEditPrompt ⟨ins, oi, ri, some m, te, se⟩
          = editPromptHead ++ ins ++ editPromptMid ++ maskClause ++ editPromptTail := by
        simp [buildEditPrompt, hne]
      rw [hb]
      simp only [strIncludes]
      have hdata : (editPromptHead ++ ins ++ editPromptMid ++ maskClause ++ editPromptTail).data
          = (editPromptHead.data ++ ins.data ++ editPromptMid.data)
              ++ (maskClause.data ++ editPromptTail.data) := by
        simp [string_append_data, List.append_assoc]
      rw [hdata]
      exact charsContains_append _ _ _
  · intro hmask
    cases mi with
    | none =>
      show editPromptHead ++ ins ++ editPromptMid ++ "" ++ editPromptTail
          = editPromptHead ++ ins ++ editPromptMid ++ editPromptTail
      apply String.ext
      simp [string_append_data, empty_string_data, List.append_assoc]
    | some m =>
      have hm : m = "" := by
        by_contra hne
        simp [jsTruthy, hne] at hmask
      subst hm
      show editPromptHead ++ ins ++ editPromptMid ++ "" ++ editPromptTail
          = editPromptHead ++ ins ++ editPromptMid ++ editPromptTail
      apply String.ext
      simp [string_append_data, empty_string_data, List.append_assoc]

/-- Witness for amended claim C8, at an edit request carrying a mask:
the built prompt contains the mask clause. -/
theorem mask_clause_presence_amended_witness :
    jsTruthy maskedEditReq.maskImage = true
    ∧ strIncludes (buildEditPrompt maskedEditReq) maskClause = true :=
  ⟨by decide, (mask_clause_presence_amended maskedEditReq).1 (by decide)⟩

/-- Claim C9: for every provider response whose first part text parses
as valid JSON, segmentImage returns exactly the parsed value, with no
schema validation beyond parse success: any valid JSON value is passed
through unchanged. -/
theorem segment_returns_parsed_json (resp : GenResponse) (t : String) (v : Json)
    (ht : firstPartText resp = some t) (hp : jsonParse t = some v) :
    segmentImage resp = Except.ok v := by
  have hne : ¬ t = "" := by
    intro he
    subst he
    have h0 : (none : Option Json) = some v := hp
    exact Option.noConfusion h0
  simp [segmentImage, segmentBody, ht, hne, hp]

/-- Witness for claim C9, at the masks example of the claim: a response
whose text is a JSON object with an empty masks array yields exactly
that object. -/
theorem segment_returns_parsed_json_witness :
    segmentImage masksJsonResponse = Except.ok (Json.obj [("masks", Json.arr [])]) :=
  segment_returns_parsed_json masksJsonResponse "\x7b\"masks\":[]\x7d"
    (Json.obj [("masks", Json.arr [])]) rfl rfl

/-- Counterexample to claim C5 as stated: on a response with no text
part, the body of segmentImage raises the internal NoResponseText error,
but the surfaced error carries the fixed segment fallback message, which
differs from the NoResponseText message. -/
theorem segment_no_text_surfaces_generic_counterexample :
    segmentImage noTextResponse = Except.error segmentFallbackMessage
    ∧ decide (segmentFallbackMessage = noResponseTextMessage) = false
    ∧ segmentBody noTextResponse = Except.error SegFailure.noResponseText :=
  ⟨rfl, by decide, rfl⟩

/-- Claim C5, amended: segmentImage reads the text of the first content
part of the first candidate; when that text is absent or empty, the body
fails with the internal NoResponseText error, which the surrounding
catch replaces, so the surfaced error is the fixed segment fallback
message rather than NoResponseText. -/
theorem segment_no_text_failure_amended (resp : GenResponse)
    (h : firstPartText resp = none ∨ firstPartText resp = some "") :
    segmentBody resp = Except.error SegFailure.noResponseText
    ∧ segmentImage resp = Except.error segmentFallbackMessage := by
  rcases h with h | h <;> constructor <;> simp [segmentImage, segmentBody, h]

/-- Witness for amended claim C5, at a response whose only part carries
no text. -/
theorem segment_no_text_failure_amended_witness :
    segmentBody noTextResponse = Except.error SegFailure.noResponseText
    ∧ segmentImage noTextResponse = Except.error segmentFallbackMessage :=
  segment_no_text_failure_amended noTextResponse (Or.inl rfl)

/-- Counterexample to claim C6 as stated: on a response whose first part
text is not valid JSON, the body fails with a JSON parse error, but the
surfaced error is the fixed segment fallback message, identical to the
surfaced error of the no-text failure, so the parse error is not
propagated as-is to the caller. -/
theorem segment_invalid_json_surfaces_generic_counterexample :
    jsonParse "not json" = none
    ∧ segmentBody invalidJsonResponse = Except.error SegFailure.jsonParseError
    ∧ segmentImage invalidJsonResponse = Except.error segmentFallbackMessage
    ∧ segmentImage invalidJsonResponse = segmentImage noTextResponse :=
  ⟨rfl, rfl, rfl, rfl⟩

/-- Claim C6, amended: when the response text is present, nonempty and
not valid JSON, the body of segmentImage fails with a JSON parse error,
and the surfaced error is the fixed segment fallback message; the parse
error is not propagated as-is. -/
theorem segment_invalid_json_failure_amended (resp : GenResponse) (t : String)
    (ht : firstPartText resp = some t) (hne : ¬ t = "") (hp : jsonParse t = none) :
    segmentBody resp = Except.error SegFailure.jsonParseError
    ∧ segmentImage resp = Except.error segmentFallbackMessage := by
  constructor <;> simp [segmentImage, segmentBody, ht, hne, hp]

/-- Witness for amended claim C6, at a response whose first part text is
not valid JSON. -/
theorem segment_invalid_json_failure_amended_witness :
    segmentBody invalidJsonResponse = Except.error SegFailure.jsonParseError
    ∧ segmentImage invalidJsonResponse = Except.error segmentFallbackMessage :=
  segment_invalid_json_failure_amended invalidJsonResponse "not json" rfl (by decide) rfl
